import Mathlib

/-!
Verification of the filtering-and-aggregation engine of the wildlife
occurrence dashboard (`streamlit_app.py`).

The dataframe is embedded as a `List` of rows.  Pandas column operations
become list operations: boolean-mask filtering is `List.filter`, `unique`
is `List.dedup`, `value.mode()[0]` is "values of maximal multiplicity,
in sorted order, first element (`head?`, `none` = the `KeyError` raised
by `[0]` on an empty result)".  Python string `.lower()` is a per-character
`Char.toLower` map (exact on ASCII; Python additionally case-folds
non-ASCII letters, and the fold is applied identically to search string
and field on both sides of every statement below).  Pandas
`Series.str.contains(pat)` defaults to `regex=True`: the pattern is a
regular expression and matching is `re.search` (a match anywhere in the
cell).  The engine below implements that semantics for the fragment
"literal characters, `.`, and the quantifiers `*`, `+`, `?`";
`parseRegex` returns `none` both for patterns that make Python raise
`re.error` (a leading or doubled quantifier, a stray metacharacter such
as `(`) and for well-formed Python syntax outside the fragment
(groups, classes, escapes, anchors, alternation, bounded repeats) —
every theorem about an active search is guarded by a successful parse,
so nothing is asserted where the model is not faithful.  Coordinates
(held as floats by pandas) are embedded as `Option ℚ`, `none` standing for
the missing marker `NaN` produced by `to_numeric(errors='coerce')`;
comparisons with `NaN` are false, which the embedding mirrors by explicit
`Option` matching.
-/

/-- `leadsWith pat l` holds when `pat` is an initial segment of `l`
(character-list version of a string prefix test). -/
def leadsWith : List Char → List Char → Bool
  | [], _ => true
  | _ :: _, [] => false
  | a :: as, b :: bs => a == b && leadsWith as bs

/-- `occursIn pat l` holds when `pat` occurs contiguously inside `l`. -/
def occursIn (pat : List Char) : List Char → Bool
  | [] => pat.isEmpty
  | c :: rest => leadsWith pat (c :: rest) || occursIn pat rest

/-- Literal substring test: `pat` occurs contiguously inside `hay`.
This is the reading the spec gives the quick search ("substring of any
of the row's searchable fields"); the code's `str.contains` actually
interprets the pattern as a regex (see `parseRegex`/`regexSearch`), and
the two coincide exactly on metacharacter-free patterns
(`searchFilter_regex_spec`). -/
def strContains (hay pat : String) : Bool :=
  occursIn pat.data hay.data

/-- Embedding of Python `str.lower()`: lowercase every character.
`Char.toLower` is exact on ASCII; Python also folds non-ASCII letters,
which this per-character map leaves unchanged. -/
def lowerStr (s : String) : String :=
  ⟨s.data.map Char.toLower⟩

/-- Characters that quantify the preceding atom in a Python regex. -/
def isQuant (c : Char) : Bool :=
  c == '*' || c == '+' || c == '?'

/-- Regex metacharacters whose constructs (anchors, bounded repeats,
classes, escapes, alternation, groups) are outside the modelled
fragment; a pattern containing one fails to parse. -/
def isBadMeta (c : Char) : Bool :=
  c == '^' || c == '$' || c == '{' || c == '}' || c == '[' ||
  c == ']' || c == '\\' || c == '|' || c == '(' || c == ')'

/-- `noMeta l` holds when `l` contains no regex metacharacter at all, so
Python reads every character of `l` literally. -/
def noMeta (l : List Char) : Bool :=
  l.all fun c => !(isQuant c || isBadMeta c || c == '.')

/-- A regex atom of the modelled fragment: a literal character or `.`. -/
inductive RAtom where
  | char (c : Char)
  | dot
deriving DecidableEq, Repr

/-- An atom with its quantifier: bare, `*`, `+` or `?`. -/
inductive RPiece where
  | once (a : RAtom)
  | star (a : RAtom)
  | plus (a : RAtom)
  | opt (a : RAtom)
deriving DecidableEq, Repr

/-- Whether an atom matches one character; as in Python (no `DOTALL`),
`.` matches every character except the newline. -/
def atomMatches : RAtom → Char → Bool
  | RAtom.char d, c => c == d
  | RAtom.dot, c => c != '\n'

/-- Parse a pattern into the modelled regex fragment.  `none` covers
both Python's `re.error` cases (a quantifier with nothing to repeat,
a doubled quantifier, a stray `(` …) and well-formed Python syntax
outside the fragment; every theorem about an active search is guarded
by a successful parse. -/
def parseRegex : List Char → Option (List RPiece)
  | [] => some []
  | c :: rest =>
    if isQuant c || isBadMeta c then none
    else
      let a := if c = '.' then RAtom.dot else RAtom.char c
      match rest with
      | [] => some [RPiece.once a]
      | c2 :: rest2 =>
        if c2 = '*' then (parseRegex rest2).map fun ps => RPiece.star a :: ps
        else if c2 = '+' then (parseRegex rest2).map fun ps => RPiece.plus a :: ps
        else if c2 = '?' then (parseRegex rest2).map fun ps => RPiece.opt a :: ps
        else (parseRegex (c2 :: rest2)).map fun ps => RPiece.once a :: ps

/-- Whether a piece sequence matches the empty string. -/
def nullable : List RPiece → Bool
  | [] => true
  | RPiece.once _ :: _ => false
  | RPiece.plus _ :: _ => false
  | RPiece.star _ :: ps => nullable ps
  | RPiece.opt _ :: ps => nullable ps

/-- Brzozowski derivative of a piece sequence by one character, as the
list of alternative residual sequences. -/
def derivAlts (c : Char) : List RPiece → List (List RPiece)
  | [] => []
  | RPiece.once a :: ps => if atomMatches a c then [ps] else []
  | RPiece.plus a :: ps => if atomMatches a c then [RPiece.star a :: ps] else []
  | RPiece.star a :: ps =>
      (if atomMatches a c then [RPiece.star a :: ps] else []) ++ derivAlts c ps
  | RPiece.opt a :: ps =>
      (if atomMatches a c then [ps] else []) ++ derivAlts c ps

/-- Run the alternatives over the input; accept as soon as one
alternative is nullable, so this decides "some alternative matches some
prefix of the input". -/
def runMatch : List (List RPiece) → List Char → Bool
  | alts, [] => alts.any nullable
  | alts, c :: cs => alts.any nullable || runMatch ((alts.map (derivAlts c)).flatten) cs

/-- `re.search` existence semantics for the fragment: the pattern
matches somewhere inside the input (at any start position). -/
def regexSearchAux (ps : List RPiece) : List Char → Bool
  | [] => runMatch [ps] []
  | c :: cs => runMatch [ps] (c :: cs) || regexSearchAux ps cs

/-- Embedding of the per-cell pandas test
`cell.str.contains(pat, na=False)` with its default `regex=True`:
the parsed pattern `ps` matches somewhere inside `s`. -/
def regexSearch (ps : List RPiece) (s : String) : Bool :=
  regexSearchAux ps s.data

/-- A raw spreadsheet row as it stands right after `read_excel`, the
column rename, and the `to_numeric(errors='coerce')` coercion of the two
coordinate columns in `load_data`: categorical cells are `Option String`
(`none` = the missing marker `NaN`), coordinates are `Option ℚ`
(`none` = unparseable or missing). -/
structure RawRow where
  species : Option String
  phylum : Option String
  class_ : Option String
  continent : Option String
  countryCode : Option String
  state : Option String
  county : Option String
  landcover : Option String
  iucnRedListCategory : Option String
  latitude : Option ℚ
  longitude : Option ℚ
deriving DecidableEq, Repr

/-- A normalized occurrence record as produced by `load_data` after the
string-column normalization: every categorical field is a plain string
(missing values became `""`). -/
structure Row where
  species : String
  phylum : String
  class_ : String
  continent : String
  countryCode : String
  state : String
  county : String
  landcover : String
  iucnRedListCategory : String
  latitude : Option ℚ
  longitude : Option ℚ
deriving DecidableEq, Repr

/-- Embedding of the per-cell effect of
`df[col].fillna('').astype(str)` followed by `.replace('nan', '')` in
`load_data`: a missing value becomes `""`, and the literal text `"nan"`
(the string form pandas gives a float `NaN`) is also replaced by `""`. -/
def normalizeCat : Option String → String
  | none => ""
  | some s => if s = "nan" then "" else s

/-- Apply the categorical normalization of `load_data` to every string
column of a raw row, keeping coordinates unchanged. -/
def normalizeRow (r : RawRow) : Row where
  species := normalizeCat r.species
  phylum := normalizeCat r.phylum
  class_ := normalizeCat r.class_
  continent := normalizeCat r.continent
  countryCode := normalizeCat r.countryCode
  state := normalizeCat r.state
  county := normalizeCat r.county
  landcover := normalizeCat r.landcover
  iucnRedListCategory := normalizeCat r.iucnRedListCategory
  latitude := r.latitude
  longitude := r.longitude

/-- Embedding of the coordinate-bounds mask of `load_data`:
`(df['latitude'] >= -90) & (df['latitude'] <= 90) &
 (df['longitude'] >= -180) & (df['longitude'] <= 180)`.
A pandas comparison against the missing marker is false, hence the
`none` branches. -/
def inBounds (r : Row) : Bool :=
  (match r.latitude with
    | some la => decide (-90 ≤ la) && decide (la ≤ 90)
    | none => false) &&
  (match r.longitude with
    | some lo => decide (-180 ≤ lo) && decide (lo ≤ 180)
    | none => false)

/-- Embedding of the row-retention part of `load_data`: normalize the
string columns, drop rows with a missing coordinate
(`dropna(subset=['longitude','latitude'])`), then drop rows outside the
valid coordinate bounds. -/
def load_data (input : List RawRow) : List Row :=
  let df := input.map normalizeRow
  let df := df.filter fun r => r.latitude.isSome && r.longitude.isSome
  let df := df.filter inBounds
  df

/-- Embedding of `get_unique_values` applied to a (normalized) string
column: `df[column].unique()` keeps first occurrences (`dedup`), the
`pd.notna` guard is vacuous on a string-typed column (every cell,
including `""`, is not-NA after `load_data`), and `sorted` sorts
lexicographically. -/
def get_unique_values (col : List String) : List String :=
  List.insertionSort (· ≤ ·) col.dedup

/-- The user's filter selection, as returned by `create_filters`: one
free-text search string and one choice per categorical field, where the
string `"All"` is the match-anything sentinel. -/
structure Constraints where
  search : String
  phylum : String
  class_ : String
  species : String
  continent : String
  country : String
  state : String
  county : String
  landcover : String
  iucn : String
deriving DecidableEq, Repr

/-- Embedding of the search mask of `filter_data`: lowercase the search
string once, read it as a regex (`str.contains` defaults to
`regex=True`), and test it by `re.search` against each of the eight
searchable columns, lowercased; a hit in one column keeps the row.
The `none` branch stands where the program raises `re.error` instead of
producing a mask (see `filter_dataChecked`); theorems about an active
search carry a successful-parse hypothesis, so the placeholder value is
never asserted to be program behaviour. -/
def rowMatchesSearch (search : String) (r : Row) : Bool :=
  let s := lowerStr search
  match parseRegex s.data with
  | none => false
  | some ps =>
    regexSearch ps (lowerStr r.species) ||
    regexSearch ps (lowerStr r.phylum) ||
    regexSearch ps (lowerStr r.class_) ||
    regexSearch ps (lowerStr r.state) ||
    regexSearch ps (lowerStr r.countryCode) ||
    regexSearch ps (lowerStr r.county) ||
    regexSearch ps (lowerStr r.landcover) ||
    regexSearch ps (lowerStr r.iucnRedListCategory)

/-- Embedding of `filter_data`: the search filter runs when the search
string is non-empty (Python truthiness of `if search:`), then each
categorical filter runs when its choice differs from the `"All"`
sentinel, keeping rows whose field equals the choice exactly. -/
def filter_data (df : List Row) (c : Constraints) : List Row :=
  let df := if c.search ≠ "" then df.filter (rowMatchesSearch c.search) else df
  let df := if c.phylum ≠ "All" then df.filter (fun r => r.phylum == c.phylum) else df
  let df := if c.class_ ≠ "All" then df.filter (fun r => r.class_ == c.class_) else df
  let df := if c.species ≠ "All" then df.filter (fun r => r.species == c.species) else df
  let df := if c.continent ≠ "All" then df.filter (fun r => r.continent == c.continent) else df
  let df := if c.country ≠ "All" then df.filter (fun r => r.countryCode == c.country) else df
  let df := if c.state ≠ "All" then df.filter (fun r => r.state == c.state) else df
  let df := if c.county ≠ "All" then df.filter (fun r => r.county == c.county) else df
  let df := if c.landcover ≠ "All" then df.filter (fun r => r.landcover == c.landcover) else df
  let df := if c.iucn ≠ "All" then df.filter (fun r => r.iucnRedListCategory == c.iucn) else df
  df

/-- The filtering step with its error path made explicit: when the
search is active and its case-folded pattern does not parse, the
program's mask evaluation raises `re.error` (propagating to `main`'s
top-level handler) instead of producing a subset; otherwise the result
is `filter_data`. -/
def filter_dataChecked (df : List Row) (c : Constraints) : Except Unit (List Row) :=
  if c.search ≠ "" then
    match parseRegex (lowerStr c.search).data with
    | none => Except.error ()
    | some _ => Except.ok (filter_data df c)
  else Except.ok (filter_data df c)

/-- The constraint set with an empty search and every categorical choice
left at the `"All"` sentinel (the state of a freshly opened sidebar). -/
def sentinelConstraints : Constraints where
  search := ""
  phylum := "All"
  class_ := "All"
  species := "All"
  continent := "All"
  country := "All"
  state := "All"
  county := "All"
  landcover := "All"
  iucn := "All"

theorem filter_data_sentinel (df : List Row) :
    filter_data df sentinelConstraints = df := rfl

/-- The ten individual filters of `filter_data` as standalone predicates:
an inactive filter (empty search, or a categorical choice equal to the
sentinel) is the vacuous predicate. -/
def filterPreds (c : Constraints) : List (Row → Bool) :=
  [fun r => if c.search ≠ "" then rowMatchesSearch c.search r else true,
   fun r => if c.phylum ≠ "All" then r.phylum == c.phylum else true,
   fun r => if c.class_ ≠ "All" then r.class_ == c.class_ else true,
   fun r => if c.species ≠ "All" then r.species == c.species else true,
   fun r => if c.continent ≠ "All" then r.continent == c.continent else true,
   fun r => if c.country ≠ "All" then r.countryCode == c.country else true,
   fun r => if c.state ≠ "All" then r.state == c.state else true,
   fun r => if c.county ≠ "All" then r.county == c.county else true,
   fun r => if c.landcover ≠ "All" then r.landcover == c.landcover else true,
   fun r => if c.iucn ≠ "All" then r.iucnRedListCategory == c.iucn else true]

/-- Run a list of row predicates as successive dataframe mask filters,
in the given evaluation order. -/
def applyFilters (df : List Row) (ps : List (Row → Bool)) : List Row :=
  ps.foldl (fun d p => d.filter p) df

/-- One column of a dataframe. -/
def iucnColumn (df : List Row) : List String :=
  df.map fun r => r.iucnRedListCategory

/-- Distinct values of a column in lexicographic order (the order pandas
`Series.mode()` reports its result in). -/
def sortedDistinct (col : List String) : List String :=
  List.insertionSort (· ≤ ·) col.dedup

/-- The largest multiplicity any value attains in the column. -/
def maxCount (col : List String) : Nat :=
  (col.map fun v => col.count v).foldr max 0

/-- Embedding of pandas `Series.mode()`: the values of maximal
multiplicity, listed in sorted order. -/
def pandasMode (col : List String) : List String :=
  (sortedDistinct col).filter fun v => col.count v == maxCount col

/-- Embedding of `filtered_df[col].mode()[0]`: the first (sorted-least)
value of maximal multiplicity; `none` models the `KeyError` that `[0]`
raises when `mode()` of an empty column is empty. -/
def mostCommonStatus (col : List String) : Option String :=
  (pandasMode col).head?

/-- The `Observations` metric of `main`: the row count of the filtered
subset. -/
def observationCount (df : List Row) : Nat :=
  df.length

/-- The `Most Common Status` metric of `main`:
`filtered_df['iucnRedListCategory'].mode()[0]`. -/
def dominantStatusMetric (df : List Row) : Option String :=
  mostCommonStatus (iucnColumn df)

/-- The sampling cap of `create_map`. -/
def MAX_POINTS : Nat := 1000

/-- One step of a 64-bit linear congruential generator, standing in for
the seeded pseudo-random number stream behind
`df.sample(n, random_state=42)` (the library RNG is not part of the
source; any fixed deterministic key stream models `random_state=seed`). -/
def lcgNext (x : Nat) : Nat :=
  (6364136223846793005 * x + 1442695040888963407) % 2 ^ 64

/-- The first `n` keys of the seeded generator. -/
def lcgKeys (seed : Nat) : Nat → List Nat
  | 0 => []
  | n + 1 => lcgNext seed :: lcgKeys (lcgNext seed) n

/-- Seeded deterministic shuffle modelling uniform sampling without
replacement: pair each row with a pseudo-random key and sort by key. -/
def shuffle (seed : Nat) (l : List Row) : List Row :=
  (@List.insertionSort (Row × Nat) (fun a b => a.2 ≤ b.2)
    (fun a b => Nat.decLe a.2 b.2) (l.zip (lcgKeys seed l.length))).map Prod.fst

/-- Embedding of the sampling step of `create_map`: a subset larger than
`MAX_POINTS` is replaced by `df.sample(n=MAX_POINTS, random_state=42)`,
a fixed-seed draw of exactly `MAX_POINTS` rows; otherwise the subset is
displayed in full. -/
def sampleForDisplay (df : List Row) : List Row :=
  if MAX_POINTS < df.length then (shuffle 42 df).take MAX_POINTS else df

/-- Embedding of the `create_filters` choice list for the phylum field:
the sentinel `"All"` prepended to the column's distinct values. -/
def phylumChoices (df : List Row) : List String :=
  "All" :: get_unique_values (df.map fun r => r.phylum)

theorem mem_ite_filter {P : Prop} [Decidable P] (p : Row → Bool) (l : List Row) (r : Row) :
    (r ∈ if P then l.filter p else l) ↔ r ∈ l ∧ (P → p r = true) := by
  by_cases h : P <;> simp [h]

theorem ite_filter_eq {P : Prop} [Decidable P] (p : Row → Bool) (l : List Row) :
    (if P then l.filter p else l) = l.filter (fun r => if P then p r else true) := by
  by_cases h : P <;> simp [h]

theorem applyFilters_eq_filter_all (ps : List (Row → Bool)) :
    ∀ df : List Row, applyFilters df ps = df.filter (fun r => ps.all fun p => p r) := by
  induction ps with
  | nil => intro df; simp [applyFilters]
  | cons p ps ih =>
      intro df
      have : applyFilters df (p :: ps) = applyFilters (df.filter p) ps := rfl
      rw [this, ih, List.filter_filter]
      simp [Bool.and_comm]

theorem all_of_perm {α : Type} {f : α → Bool} {l₁ l₂ : List α} (h : l₁.Perm l₂) :
    l₁.all f = l₂.all f := by
  induction h with
  | nil => rfl
  | cons x h ih => simp [List.all_cons, ih]
  | swap x y l => cases hx : f x <;> cases hy : f y <;> simp [List.all_cons, hx, hy]
  | trans h₁ h₂ ih₁ ih₂ => exact ih₁.trans ih₂

theorem filter_data_eq_applyFilters (df : List Row) (c : Constraints) :
    filter_data df c = applyFilters df (filterPreds c) := by
  show _ = ((((((((((df.filter _).filter _).filter _).filter _).filter _).filter
      _).filter _).filter _).filter _).filter _)
  simp only [filter_data, ite_filter_eq]

/-- C3 (claim): with an empty search string and every categorical choice
at the `"All"` sentinel, `filter_data` returns the full store unchanged. -/
theorem filterData_identity_of_sentinel (df : List Row) (c : Constraints)
    (h0 : c.search = "") (h1 : c.phylum = "All") (h2 : c.class_ = "All")
    (h3 : c.species = "All") (h4 : c.continent = "All") (h5 : c.country = "All")
    (h6 : c.state = "All") (h7 : c.county = "All") (h8 : c.landcover = "All")
    (h9 : c.iucn = "All") : filter_data df c = df := by
  obtain ⟨s, f1, f2, f3, f4, f5, f6, f7, f8, f9⟩ := c
  simp only at h0 h1 h2 h3 h4 h5 h6 h7 h8 h9
  subst h0 h1 h2 h3 h4 h5 h6 h7 h8 h9
  exact filter_data_sentinel df

/-- Witness for C3 at a concrete store and the sentinel constraint set. -/
theorem filterData_identity_witness :
    filter_data [] sentinelConstraints = [] :=
  filterData_identity_of_sentinel [] sentinelConstraints
    rfl rfl rfl rfl rfl rfl rfl rfl rfl rfl

/-- C2 amended (claim): for every constraint set whose case-folded
search string parses as a pattern of the modelled fragment, a row of
the store belongs to the filtered result exactly when it satisfies
every active predicate of the constraint set — the case-insensitive
*regex* search (`str.contains` defaults to `regex=True`; substring
semantics only for metacharacter-free searches, see
`searchFilter_regex_spec`) when the search string is non-empty, and
case-sensitive exact equality for every categorical field whose choice
is not the `"All"` sentinel.  The parse guard marks where the program
filters at all: on an unparseable pattern it raises `re.error` instead
(`filter_dataChecked`). -/
theorem filterData_mem_iff (df : List Row) (c : Constraints) (r : Row) (h : r ∈ df)
    (_hp : c.search ≠ "" → (parseRegex (lowerStr c.search).data).isSome = true) :
    r ∈ filter_data df c ↔
      (c.search ≠ "" → rowMatchesSearch c.search r = true) ∧
      (c.phylum ≠ "All" → r.phylum = c.phylum) ∧
      (c.class_ ≠ "All" → r.class_ = c.class_) ∧
      (c.species ≠ "All" → r.species = c.species) ∧
      (c.continent ≠ "All" → r.continent = c.continent) ∧
      (c.country ≠ "All" → r.countryCode = c.country) ∧
      (c.state ≠ "All" → r.state = c.state) ∧
      (c.county ≠ "All" → r.county = c.county) ∧
      (c.landcover ≠ "All" → r.landcover = c.landcover) ∧
      (c.iucn ≠ "All" → r.iucnRedListCategory = c.iucn) := by
  simp only [filter_data, mem_ite_filter, beq_iff_eq, and_assoc, h, true_and]

/-- C4 (claim): running the ten individual filters of `filter_data`
(search plus the nine exact-match filters) in any permutation of
evaluation order yields the same final subset as `filter_data`. -/
theorem applyFilters_perm_eq_filterData (df : List Row) (c : Constraints)
    (ps : List (Row → Bool)) (h : ps.Perm (filterPreds c)) :
    applyFilters df ps = filter_data df c := by
  rw [filter_data_eq_applyFilters, applyFilters_eq_filter_all, applyFilters_eq_filter_all]
  have he : (fun r => ps.all fun p => p r) =
      (fun r => (filterPreds c).all fun p => p r) := by
    funext r
    exact all_of_perm h
  rw [he]

/-- Witness for C4: swapping the first two filters (phylum before
search) on a concrete constraint set gives the same subset. -/
theorem applyFilters_perm_witness :
    applyFilters []
      ((fun r => if sentinelConstraints.phylum ≠ "All" then
          r.phylum == sentinelConstraints.phylum else true) ::
       (fun r => if sentinelConstraints.search ≠ "" then
          rowMatchesSearch sentinelConstraints.search r else true) ::
       (filterPreds sentinelConstraints).drop 2) =
      filter_data [] sentinelConstraints :=
  applyFilters_perm_eq_filterData [] sentinelConstraints _ (List.Perm.swap _ _ _)

/-- Witness for C2: a concrete row, store and constraint set whose
search string `"leo"` parses. -/
theorem filterData_mem_iff_witness :
    let r : Row := ⟨"Panthera leo", "Chordata", "Mammalia", "Africa", "KE",
      "Nairobi", "Langata", "Savanna", "VU", some (-1), some 37⟩
    r ∈ filter_data [r] ⟨"leo", "All", "All", "All", "All", "KE",
      "All", "All", "All", "All"⟩ ↔
      ("leo" ≠ "" → rowMatchesSearch "leo" r = true) ∧
      ("All" ≠ "All" → r.phylum = "All") ∧
      ("All" ≠ "All" → r.class_ = "All") ∧
      ("All" ≠ "All" → r.species = "All") ∧
      ("All" ≠ "All" → r.continent = "All") ∧
      ("KE" ≠ "All" → r.countryCode = "KE") ∧
      ("All" ≠ "All" → r.state = "All") ∧
      ("All" ≠ "All" → r.county = "All") ∧
      ("All" ≠ "All" → r.landcover = "All") ∧
      ("All" ≠ "All" → r.iucnRedListCategory = "All") :=
  filterData_mem_iff _ _ _ (List.mem_singleton.mpr rfl) (fun _ => rfl)

theorem lowerStr_data (s : String) : (lowerStr s).data = s.data.map Char.toLower := rfl

theorem charBeq_comm (a b : Char) : (a == b) = (b == a) := by
  by_cases hab : a = b
  · subst hab
    rfl
  · simp [hab, Ne.symm hab]

/-- The regex that reads every character of `pat` literally — what a
metacharacter-free pattern parses to. -/
def literalRegex (pat : List Char) : List RPiece :=
  pat.map fun c => RPiece.once (RAtom.char c)

theorem runMatch_nil_alts (s : List Char) : runMatch [] s = false := by
  induction s with
  | nil => rfl
  | cons c cs ih => simp [runMatch, ih]

theorem runMatch_literal (hay : List Char) : ∀ pat : List Char,
    runMatch [literalRegex pat] hay = leadsWith pat hay := by
  induction hay with
  | nil =>
      intro pat
      cases pat <;> rfl
  | cons c ct ih =>
      intro pat
      cases pat with
      | nil => rfl
      | cons p pt =>
          rw [show literalRegex (p :: pt) =
            RPiece.once (RAtom.char p) :: literalRegex pt from rfl]
          cases hc : c == p with
          | true =>
              have hpc : (p == c) = true := by rw [charBeq_comm]; exact hc
              simp [runMatch, nullable, derivAlts, atomMatches, hc, leadsWith, hpc, ih]
          | false =>
              have hpc : (p == c) = false := by rw [charBeq_comm]; exact hc
              simp [runMatch, nullable, derivAlts, atomMatches, hc, leadsWith, hpc,
                runMatch_nil_alts]

theorem regexSearchAux_literal (pat hay : List Char) :
    regexSearchAux (literalRegex pat) hay = occursIn pat hay := by
  induction hay with
  | nil =>
      show runMatch [literalRegex pat] [] = pat.isEmpty
      cases pat <;> rfl
  | cons c ct ih =>
      show (runMatch [literalRegex pat] (c :: ct) ||
        regexSearchAux (literalRegex pat) ct) = occursIn pat (c :: ct)
      rw [runMatch_literal, ih]
      rfl

theorem parseRegex_literal : ∀ l : List Char, noMeta l = true →
    parseRegex l = some (literalRegex l) := by
  intro l
  induction l with
  | nil => intro _; rfl
  | cons c rest ih =>
      intro h
      rw [noMeta, List.all_cons, Bool.and_eq_true] at h
      obtain ⟨hc, hrest⟩ := h
      rw [Bool.not_eq_true'] at hc
      have hq : isQuant c = false := by
        cases hq2 : isQuant c
        · rfl
        · rw [hq2] at hc; simp at hc
      have hb : isBadMeta c = false := by
        cases hb2 : isBadMeta c
        · rfl
        · rw [hb2] at hc; simp at hc
      have hdot : (c == '.') = false := by
        cases hd2 : c == '.'
        · rfl
        · rw [hd2] at hc; simp at hc
      have hdot' : ¬c = '.' := by simpa using hdot
      cases rest with
      | nil =>
          simp [parseRegex, hq, hb, hdot', literalRegex]
      | cons c2 rest2 =>
          have hrest' : noMeta (c2 :: rest2) = true := hrest
          rw [noMeta, List.all_cons, Bool.and_eq_true] at hrest'
          have hc2 := hrest'.1
          rw [Bool.not_eq_true'] at hc2
          have hq2 : isQuant c2 = false := by
            cases hx : isQuant c2
            · rfl
            · rw [hx] at hc2; simp at hc2
          rw [isQuant] at hq2
          simp only [Bool.or_eq_false_iff, beq_eq_false_iff_ne, ne_eq] at hq2
          simp [parseRegex, hq, hb, hdot', hq2.1.1, hq2.1.2, hq2.2,
            ih hrest, literalRegex]

/-- A row whose species is `"xyz"`; no searchable field contains the
literal three-character text `"x.z"`. -/
def rowXYZ : Row :=
  ⟨"xyz", "", "", "", "", "", "", "", "", some 0, some 0⟩

/-- A row all of whose searchable fields are empty. -/
def emptyFieldsRow : Row :=
  ⟨"", "", "", "", "", "", "", "", "", some 0, some 0⟩

/-- A single concrete occurrence row reused by the witnesses. -/
def lionRow : Row :=
  ⟨"Panthera leo", "Chordata", "Mammalia", "Africa", "KE",
   "Nairobi", "Langata", "Savanna", "VU", some (-1), some 37⟩

/-- C5 counterexample: `str.contains` defaults to `regex=True`, so the
search string is a regex, not a literal substring: the search `"x.z"`
keeps the row whose species is `"xyz"` although `"x.z"` is a substring
of none of its eight searchable fields, and the search `"a*"` matches a
row all of whose searchable fields are empty — refuting both the
claimed substring reading and its empty-field-cannot-match consequence. -/
theorem searchFilter_substring_cex :
    (rowMatchesSearch "x.z" rowXYZ = true ∧
      strContains (lowerStr rowXYZ.species) (lowerStr "x.z") = false ∧
      strContains (lowerStr rowXYZ.phylum) (lowerStr "x.z") = false ∧
      strContains (lowerStr rowXYZ.class_) (lowerStr "x.z") = false ∧
      strContains (lowerStr rowXYZ.state) (lowerStr "x.z") = false ∧
      strContains (lowerStr rowXYZ.countryCode) (lowerStr "x.z") = false ∧
      strContains (lowerStr rowXYZ.county) (lowerStr "x.z") = false ∧
      strContains (lowerStr rowXYZ.landcover) (lowerStr "x.z") = false ∧
      strContains (lowerStr rowXYZ.iucnRedListCategory) (lowerStr "x.z") = false) ∧
    rowMatchesSearch "a*" emptyFieldsRow = true := by
  decide

/-- The constraint set whose quick search is the pattern `"x.z"`, every
categorical choice at the sentinel. -/
def constraintsXZ : Constraints :=
  ⟨"x.z", "All", "All", "All", "All", "All", "All", "All", "All", "All"⟩

/-- C2 counterexample: with search `"x.z"` the program keeps the row
whose species is `"xyz"` (a regex match), yet the row satisfies no
case-insensitive *substring* reading of the active search predicate —
`"x.z"` is a substring of none of its eight searchable fields — so
membership in the filtered result is not equivalent to the predicate
the claim states. -/
theorem filterData_substring_cex :
    rowXYZ ∈ filter_data [rowXYZ] constraintsXZ ∧
    constraintsXZ.search ≠ "" ∧
    strContains (lowerStr rowXYZ.species) (lowerStr constraintsXZ.search) = false ∧
    strContains (lowerStr rowXYZ.phylum) (lowerStr constraintsXZ.search) = false ∧
    strContains (lowerStr rowXYZ.class_) (lowerStr constraintsXZ.search) = false ∧
    strContains (lowerStr rowXYZ.state) (lowerStr constraintsXZ.search) = false ∧
    strContains (lowerStr rowXYZ.countryCode) (lowerStr constraintsXZ.search) = false ∧
    strContains (lowerStr rowXYZ.county) (lowerStr constraintsXZ.search) = false ∧
    strContains (lowerStr rowXYZ.landcover) (lowerStr constraintsXZ.search) = false ∧
    strContains (lowerStr rowXYZ.iucnRedListCategory) (lowerStr constraintsXZ.search) = false := by
  decide

theorem filter_dataChecked_ok (df : List Row) (c : Constraints)
    (hp : c.search ≠ "" → (parseRegex (lowerStr c.search).data).isSome = true) :
    filter_dataChecked df c = Except.ok (filter_data df c) := by
  rw [filter_dataChecked]
  by_cases hs : c.search ≠ ""
  · rw [if_pos hs]
    obtain ⟨ps, hps⟩ := Option.isSome_iff_exists.mp (hp hs)
    rw [hps]
  · rw [if_neg hs]

theorem filter_dataChecked_raises (df : List Row) (c : Constraints)
    (hs : c.search ≠ "") (hp : parseRegex (lowerStr c.search).data = none) :
    filter_dataChecked df c = Except.error () := by
  rw [filter_dataChecked, if_pos hs, hp]

/-- The invalid pattern `"("` (Python: `re.error: missing ), unterminated
subpattern`) makes the checked filter raise rather than produce a subset. -/
theorem filter_dataChecked_raises_example :
    filter_dataChecked [] ⟨"(", "All", "All", "All", "All", "All", "All",
      "All", "All", "All"⟩ = Except.error () :=
  filter_dataChecked_raises _ _ (by decide) rfl

/-- C5 amended (claim): for every non-empty search string whose
case-folded form parses as a pattern of the modelled fragment, the
search filter keeps a row exactly when that pattern regex-matches
(`re.search`) inside at least one of the eight case-folded searchable
fields (one hit suffices); when the case-folded search string contains
no regex metacharacter this coincides with the substring test of the
original claim, and then an empty field value cannot match.  (Case
folding is the per-character map of `lowerStr`, exact on ASCII; an
unparseable pattern such as `"("` makes the program raise `re.error`
instead, see `filter_dataChecked`.) -/
theorem searchFilter_regex_spec (s : String) (r : Row) (h : s ≠ "") :
    (∀ ps, parseRegex (lowerStr s).data = some ps →
      (rowMatchesSearch s r = true ↔
        (regexSearch ps (lowerStr r.species) = true ∨
         regexSearch ps (lowerStr r.phylum) = true ∨
         regexSearch ps (lowerStr r.class_) = true ∨
         regexSearch ps (lowerStr r.state) = true ∨
         regexSearch ps (lowerStr r.countryCode) = true ∨
         regexSearch ps (lowerStr r.county) = true ∨
         regexSearch ps (lowerStr r.landcover) = true ∨
         regexSearch ps (lowerStr r.iucnRedListCategory) = true))) ∧
    (noMeta (lowerStr s).data = true →
      ((rowMatchesSearch s r = true ↔
        (strContains (lowerStr r.species) (lowerStr s) = true ∨
         strContains (lowerStr r.phylum) (lowerStr s) = true ∨
         strContains (lowerStr r.class_) (lowerStr s) = true ∨
         strContains (lowerStr r.state) (lowerStr s) = true ∨
         strContains (lowerStr r.countryCode) (lowerStr s) = true ∨
         strContains (lowerStr r.county) (lowerStr s) = true ∨
         strContains (lowerStr r.landcover) (lowerStr s) = true ∨
         strContains (lowerStr r.iucnRedListCategory) (lowerStr s) = true)) ∧
       strContains "" (lowerStr s) = false)) := by
  constructor
  · intro ps hps
    simp [rowMatchesSearch, hps, Bool.or_eq_true, or_assoc]
  · intro hnm
    constructor
    · have hps := parseRegex_literal _ hnm
      simp [rowMatchesSearch, hps, Bool.or_eq_true, or_assoc, regexSearch,
        regexSearchAux_literal, strContains]
    · have hd : s.data ≠ [] := fun he => h (String.ext he)
      cases hs : s.data with
      | nil => exact absurd hs hd
      | cons ch rest =>
          show occursIn (lowerStr s).data "".data = false
          rw [lowerStr_data, hs]
          rfl

/-- Witness for C5: the metacharacter-free search `"leo"` on a concrete
row, exercising both the parse-guarded regex form and the substring
coincidence. -/
theorem searchFilter_regex_witness :
    (∀ ps, parseRegex (lowerStr "leo").data = some ps →
      (rowMatchesSearch "leo" lionRow = true ↔
        (regexSearch ps (lowerStr lionRow.species) = true ∨
         regexSearch ps (lowerStr lionRow.phylum) = true ∨
         regexSearch ps (lowerStr lionRow.class_) = true ∨
         regexSearch ps (lowerStr lionRow.state) = true ∨
         regexSearch ps (lowerStr lionRow.countryCode) = true ∨
         regexSearch ps (lowerStr lionRow.county) = true ∨
         regexSearch ps (lowerStr lionRow.landcover) = true ∨
         regexSearch ps (lowerStr lionRow.iucnRedListCategory) = true))) ∧
    (noMeta (lowerStr "leo").data = true →
      ((rowMatchesSearch "leo" lionRow = true ↔
        (strContains (lowerStr lionRow.species) (lowerStr "leo") = true ∨
         strContains (lowerStr lionRow.phylum) (lowerStr "leo") = true ∨
         strContains (lowerStr lionRow.class_) (lowerStr "leo") = true ∨
         strContains (lowerStr lionRow.state) (lowerStr "leo") = true ∨
         strContains (lowerStr lionRow.countryCode) (lowerStr "leo") = true ∨
         strContains (lowerStr lionRow.county) (lowerStr "leo") = true ∨
         strContains (lowerStr lionRow.landcover) (lowerStr "leo") = true ∨
         strContains (lowerStr lionRow.iucnRedListCategory) (lowerStr "leo") = true)) ∧
       strContains "" (lowerStr "leo") = false)) :=
  searchFilter_regex_spec "leo" lionRow (by decide)

theorem coordBand_iff (o : Option ℚ) (lo hi : ℚ) :
    (match o with
      | some x => decide (lo ≤ x) && decide (x ≤ hi)
      | none => false) = true ↔ ∃ x, o = some x ∧ lo ≤ x ∧ x ≤ hi := by
  cases o <;> simp

/-- A raw row whose latitude is out of range (95 > 90). -/
def rawLat95 : RawRow :=
  ⟨some "Panthera leo", some "Chordata", some "Mammalia", some "Africa",
   some "KE", some "Nairobi", some "Langata", some "Savanna", some "VU",
   some 95, some 37⟩

/-- A raw row whose latitude sits exactly on the 90 boundary. -/
def rawLat90 : RawRow :=
  ⟨some "Panthera leo", some "Chordata", some "Mammalia", some "Africa",
   some "KE", some "Nairobi", some "Langata", some "Savanna", some "VU",
   some 90, some 37⟩

/-- C6 (claim): ingestion retains exactly the rows whose two coordinates
are present and inside the inclusive bounds −90 ≤ lat ≤ 90 and
−180 ≤ lon ≤ 180 (besides the categorical normalization); in particular
a row with latitude 95 is dropped and a row with latitude exactly 90 is
retained. -/
theorem loadData_coordinate_spec :
    (∀ (input : List RawRow) (r : Row),
      r ∈ load_data input ↔
        (∃ raw ∈ input, normalizeRow raw = r) ∧
        (∃ la, r.latitude = some la ∧ -90 ≤ la ∧ la ≤ 90) ∧
        (∃ lo, r.longitude = some lo ∧ -180 ≤ lo ∧ lo ≤ 180)) ∧
    load_data [rawLat95] = [] ∧
    load_data [rawLat90] = [normalizeRow rawLat90] := by
  refine ⟨?_, by decide, by decide⟩
  intro input r
  simp only [load_data, List.mem_filter, List.mem_map]
  constructor
  · rintro ⟨⟨⟨raw, hraw, heq⟩, -⟩, hb⟩
    rw [inBounds, Bool.and_eq_true, coordBand_iff, coordBand_iff] at hb
    exact ⟨⟨raw, hraw, heq⟩, hb.1, hb.2⟩
  · rintro ⟨⟨raw, hraw, heq⟩, ⟨la, hla, h1, h2⟩, ⟨lo, hlo, h3, h4⟩⟩
    refine ⟨⟨⟨raw, hraw, heq⟩, ?_⟩, ?_⟩
    · rw [Bool.and_eq_true]
      constructor <;> simp [hla, hlo]
    · rw [inBounds, Bool.and_eq_true, coordBand_iff, coordBand_iff]
      exact ⟨⟨la, hla, h1, h2⟩, ⟨lo, hlo, h3, h4⟩⟩

theorem mem_get_unique_values {col : List String} {v : String} :
    v ∈ get_unique_values col ↔ v ∈ col := by
  rw [get_unique_values, (List.perm_insertionSort _ _).mem_iff, List.mem_dedup]

/-- C7 counterexample: a normalized missing value (the empty string) is
NOT excluded from the distinct-value list — `get_unique_values` keeps it,
because its not-NA guard does not fire on an actual string. -/
theorem uniqueValues_empty_string_member :
    normalizeCat none = "" ∧
    "" ∈ get_unique_values [normalizeCat none, normalizeCat (some "Chordata")] := by
  exact ⟨rfl, mem_get_unique_values.mpr (by simp [normalizeCat])⟩

/-- C7 amended: missing markers and the literal text `"nan"` are
normalized to the empty string at ingestion, and the distinct-value list
is the sorted deduplication of the column with every value kept — the
empty string included whenever it occurs. -/
theorem uniqueValues_spec :
    (∀ (col : List String) (v : String), v ∈ get_unique_values col ↔ v ∈ col) ∧
    (∀ col : List String, (get_unique_values col).Sorted (· ≤ ·)) ∧
    (∀ col : List String, (get_unique_values col).Nodup) ∧
    normalizeCat none = "" ∧ normalizeCat (some "nan") = "" := by
  refine ⟨fun col v => mem_get_unique_values, ?_, ?_, rfl, rfl⟩
  · intro col
    exact List.sorted_insertionSort _ _
  · intro col
    exact (List.perm_insertionSort _ _).nodup_iff.mpr (List.nodup_dedup col)

theorem foldr_max_le {ns : List Nat} {x : Nat} (h : x ∈ ns) : x ≤ ns.foldr max 0 := by
  induction ns with
  | nil => cases h
  | cons a t ih =>
      rcases List.mem_cons.mp h with rfl | hm
      · exact le_max_left _ _
      · exact le_trans (ih hm) (le_max_right _ _)

theorem foldr_max_mem {ns : List Nat} (h : ns ≠ []) : ns.foldr max 0 ∈ ns := by
  induction ns with
  | nil => exact absurd rfl h
  | cons a t ih =>
      cases t with
      | nil => simp
      | cons b u =>
          rcases max_choice a ((b :: u).foldr max 0) with he | he
        <;> rw [List.foldr_cons, he]
          · exact List.mem_cons_self _ _
          · exact List.mem_cons_of_mem _ (ih (by simp))

theorem mostCommonStatus_spec (col : List String) (h : col ≠ []) :
    ∃ m, mostCommonStatus col = some m ∧
      (∀ v ∈ col, col.count v ≤ col.count m) ∧
      (∀ v ∈ col, col.count v = col.count m → m ≤ v) := by
  have hmapne : (col.map fun v => col.count v) ≠ [] := by
    cases col
    · exact absurd rfl h
    · simp
  obtain ⟨w, hw, hwc⟩ := List.mem_map.mp (foldr_max_mem hmapne)
  have hwmode : w ∈ pandasMode col := by
    rw [pandasMode, List.mem_filter]
    refine ⟨?_, by simp [hwc, maxCount]⟩
    rw [sortedDistinct, (List.perm_insertionSort _ _).mem_iff, List.mem_dedup]
    exact hw
  obtain ⟨m, rest, hmode⟩ := List.exists_cons_of_ne_nil (List.ne_nil_of_mem hwmode)
  have hmmem : m ∈ pandasMode col := by
    rw [hmode]
    exact List.mem_cons_self _ _
  have hmc : col.count m = maxCount col := by
    have := (List.mem_filter.mp hmmem).2
    simpa using this
  refine ⟨m, ?_, ?_, ?_⟩
  · rw [mostCommonStatus, hmode]
    rfl
  · intro v hv
    rw [hmc]
    exact foldr_max_le (List.mem_map.mpr ⟨v, hv, rfl⟩)
  · intro v hv hvc
    have hsorted : (pandasMode col).Sorted (· ≤ ·) :=
      List.Pairwise.filter _ (List.sorted_insertionSort _ _)
    have hvmode : v ∈ pandasMode col := by
      rw [pandasMode, List.mem_filter]
      refine ⟨?_, by simp [hvc, hmc]⟩
      rw [sortedDistinct, (List.perm_insertionSort _ _).mem_iff, List.mem_dedup]
      exact hv
    rw [hmode] at hvmode hsorted
    rcases List.mem_cons.mp hvmode with rfl | hvrest
    · exact le_refl _
    · exact List.rel_of_sorted_cons hsorted v hvrest

/-- C8 (claim): on a non-empty subset the dominant-status metric is some
value of maximal frequency in the `iucnRedListCategory` column, and among
the values tied for that maximal frequency it is the first in sorted
order (lexicographic least). -/
theorem dominantStatus_mode_spec (df : List Row) (h : df ≠ []) :
    ∃ m, dominantStatusMetric df = some m ∧
      (∀ v ∈ iucnColumn df, (iucnColumn df).count v ≤ (iucnColumn df).count m) ∧
      (∀ v ∈ iucnColumn df, (iucnColumn df).count v = (iucnColumn df).count m → m ≤ v) := by
  have hne : iucnColumn df ≠ [] := by
    cases df
    · exact absurd rfl h
    · simp [iucnColumn]
  exact mostCommonStatus_spec _ hne

/-- A two-row store whose IUCN categories `VU` and `LC` are tied. -/
def tieStore : List Row :=
  [⟨"Panthera leo", "Chordata", "Mammalia", "Africa", "KE",
    "Nairobi", "Langata", "Savanna", "VU", some (-1), some 37⟩,
   ⟨"Equus quagga", "Chordata", "Mammalia", "Africa", "KE",
    "Nairobi", "Langata", "Savanna", "LC", some (-1), some 38⟩]

/-- Witness for C8: on the tied two-row store the metric exists and is
the sorted-first of the tied categories. -/
theorem dominantStatus_mode_witness :
    ∃ m, dominantStatusMetric tieStore = some m ∧
      (∀ v ∈ iucnColumn tieStore,
        (iucnColumn tieStore).count v ≤ (iucnColumn tieStore).count m) ∧
      (∀ v ∈ iucnColumn tieStore,
        (iucnColumn tieStore).count v = (iucnColumn tieStore).count m → m ≤ v) :=
  dominantStatus_mode_spec tieStore (by simp [tieStore])

/-- C1 counterexample: on the empty subset the dominant-status metric
produces no value at all — `mode()[0]` has no element to return (the
`KeyError` branch, embedded as `none`) — so the claimed explicit
"not applicable" result does not exist. -/
theorem dominantStatus_empty_none :
    dominantStatusMetric [] = none ∧ ¬ ∃ s, dominantStatusMetric [] = some s := by
  refine ⟨rfl, ?_⟩
  rintro ⟨s, hs⟩
  rw [show dominantStatusMetric [] = none from rfl] at hs
  cases hs

/-- C1 amended: on the empty subset the observation count is 0, but the
dominant-status computation fails (models the `KeyError` raised by
`mode()[0]`, caught only by the top-level error handler of `main`)
instead of yielding a "not applicable" value. -/
theorem summary_empty_subset :
    observationCount [] = 0 ∧ dominantStatusMetric [] = none :=
  ⟨rfl, rfl⟩

theorem lcgKeys_length (seed n : Nat) : (lcgKeys seed n).length = n := by
  induction n generalizing seed with
  | zero => rfl
  | succ k ih => simp [lcgKeys, ih]

theorem shuffle_length (seed : Nat) (l : List Row) :
    (shuffle seed l).length = l.length := by
  rw [shuffle, List.length_map, (List.perm_insertionSort _ _).length_eq,
    List.length_zip, lcgKeys_length, min_self]

theorem shuffle_mem {seed : Nat} {l : List Row} {r : Row}
    (h : r ∈ shuffle seed l) : r ∈ l := by
  rw [shuffle] at h
  obtain ⟨⟨a, k⟩, hmem, rfl⟩ := List.mem_map.mp h
  exact (List.of_mem_zip ((List.perm_insertionSort _ _).mem_iff.mp hmem)).1

/-- C9 (claim): a filtered subset larger than 1000 rows is displayed as
a deterministic fixed-seed sample of exactly 1000 of its rows, a subset
of at most 1000 rows is displayed in full, and two evaluations of the
display step on the same subset select the identical sample. -/
theorem sampleForDisplay_spec (df : List Row) :
    (MAX_POINTS < df.length → (sampleForDisplay df).length = MAX_POINTS) ∧
    (df.length ≤ MAX_POINTS → sampleForDisplay df = df) ∧
    (∀ r ∈ sampleForDisplay df, r ∈ df) ∧
    (∀ df2, df = df2 → sampleForDisplay df = sampleForDisplay df2) := by
  refine ⟨?_, ?_, ?_, ?_⟩
  · intro h
    rw [sampleForDisplay, if_pos h, List.length_take, shuffle_length]
    exact min_eq_left (le_of_lt h)
  · intro h
    rw [sampleForDisplay, if_neg (not_lt.mpr h)]
  · intro r hr
    rw [sampleForDisplay] at hr
    split at hr
    · exact shuffle_mem (List.mem_of_mem_take hr)
    · exact hr
  · rintro df2 rfl
    rfl

/-- Witness for C9: a 1001-row store is sampled down to exactly 1000
rows, and a 1-row store is displayed in full. -/
theorem sampleForDisplay_witness :
    (sampleForDisplay (List.replicate 1001 lionRow)).length = MAX_POINTS ∧
    sampleForDisplay [lionRow] = [lionRow] :=
  ⟨(sampleForDisplay_spec (List.replicate 1001 lionRow)).1
      (by rw [MAX_POINTS, List.length_replicate]; norm_num),
   (sampleForDisplay_spec [lionRow]).2.1
      (by rw [MAX_POINTS, List.length_singleton]; norm_num)⟩

/-- A store in which the phylum column contains the literal data value
`"All"` alongside an ordinary value. -/
def collisionStore : List Row :=
  [⟨"Mystery", "All", "Mammalia", "Africa", "KE",
    "Nairobi", "Langata", "Savanna", "VU", some (-1), some 37⟩,
   ⟨"Panthera leo", "Chordata", "Mammalia", "Africa", "KE",
    "Nairobi", "Langata", "Savanna", "VU", some (-1), some 37⟩]

/-- C10 (claim): when a categorical column contains the literal string
`"All"` as a data value, that value appears in the field's choice list,
yet selecting it imposes no restriction at all — the filter treats it as
the match-anything sentinel, so rows whose field differs from `"All"`
are still retained. -/
theorem sentinel_collision_spec (df : List Row)
    (h : ∃ r ∈ df, r.phylum = "All") :
    "All" ∈ get_unique_values (df.map fun r => r.phylum) ∧
    "All" ∈ phylumChoices df ∧
    filter_data df sentinelConstraints = df ∧
    ∀ r ∈ df, r.phylum ≠ "All" → r ∈ filter_data df sentinelConstraints := by
  obtain ⟨r0, hr0, hall⟩ := h
  refine ⟨mem_get_unique_values.mpr (List.mem_map.mpr ⟨r0, hr0, hall⟩),
    List.mem_cons_self _ _, filter_data_sentinel df, ?_⟩
  intro r hr _
  rw [filter_data_sentinel]
  exact hr

/-- Witness for C10: the concrete colliding store; its second row, whose
phylum is not `"All"`, survives the `"All"` selection. -/
theorem sentinel_collision_witness :
    "All" ∈ get_unique_values (collisionStore.map fun r => r.phylum) ∧
    "All" ∈ phylumChoices collisionStore ∧
    filter_data collisionStore sentinelConstraints = collisionStore ∧
    ∀ r ∈ collisionStore, r.phylum ≠ "All" →
      r ∈ filter_data collisionStore sentinelConstraints :=
  sentinel_collision_spec collisionStore
    ⟨collisionStore.head (by simp [collisionStore]), by simp [collisionStore], rfl⟩
